import Mathlib

/-!
Shallow embedding of `main.py` (UsbSelector8): an 8-port USB/power selector
driven by a TS3USB30 2:1 switch, two PI3USB14 4:1 switches, a 74HC137 3-to-8
decoder and an MCP23017 I/O expander.  Pure pin state is modelled as `Nat`
fields holding 0/1 logic levels; the MCP23017 is modelled by its OLATB output
latch (the LED byte).  Python bitwise operations on non-negative ints are
translated to `Nat` operations; Python's `~x & 0xFF` on a byte-valued `x`
becomes `(x % 256) ^^^ 255`.
-/

set_option autoImplicit false

/-- TS3USB30 2:1 switch: `oe` (0 = enabled) and side select `s`
    (0 = D1/B side, 1 = D2/A side), from `class TS3USB30`. -/
structure TS3USB30 where
  oe : Nat
  s : Nat
deriving DecidableEq

def TS3USB30.route_to_A (d : TS3USB30) : TS3USB30 := { d with s := 1 }

def TS3USB30.route_to_B (d : TS3USB30) : TS3USB30 := { d with s := 0 }

def TS3USB30.enable (d : TS3USB30) : TS3USB30 := { d with oe := 0 }

def TS3USB30.disable (d : TS3USB30) : TS3USB30 := { d with oe := 1 }

/-- PI3USB14 4:1 switch: active-low enable `en_n` and select lines `s1 s0`,
    from `class PI3USB14`. -/
structure PI3USB14 where
  en_n : Nat
  s1 : Nat
  s0 : Nat
deriving DecidableEq

/-- `PI3USB14.select`: clamp the argument into [0,3]
    (`p = max(0, min(3, port0123))`) and drive S0/S1 from its bits. -/
def PI3USB14.select (d : PI3USB14) (port0123 : Int) : PI3USB14 :=
  let p : Nat := (max 0 (min 3 port0123)).toNat
  { d with s0 := (p >>> 0) &&& 1, s1 := (p >>> 1) &&& 1 }

def PI3USB14.enable (d : PI3USB14) : PI3USB14 := { d with en_n := 0 }

def PI3USB14.disable (d : PI3USB14) : PI3USB14 := { d with en_n := 1 }

/-- 74HC137 3-to-8 decoder: active-low enable `e1_n` and address lines
    `a2 a1 a0`, from `class HC137`. -/
structure HC137 where
  e1_n : Nat
  a2 : Nat
  a1 : Nat
  a0 : Nat
deriving DecidableEq

/-- `HC137.select_addr`: clamp into [0,7] (`a = max(0, min(7, addr))`) and
    set A0..A2 only; `~E1` is not touched. -/
def HC137.select_addr (d : HC137) (addr : Int) : HC137 :=
  let a : Nat := (max 0 (min 7 addr)).toNat
  { d with a0 := (a >>> 0) &&& 1, a1 := (a >>> 1) &&& 1, a2 := (a >>> 2) &&& 1 }

def HC137.enable (d : HC137) : HC137 := { d with e1_n := 0 }

def HC137.disable (d : HC137) : HC137 := { d with e1_n := 1 }

/-- MCP23017, reduced to its OLATB output latch (the LED byte).  The GPIOA
    input reads are modelled as externally supplied sample bytes. -/
structure MCP23017 where
  olatb : Nat
deriving DecidableEq

/-- `MCP23017.set_led_only`: LED byte with only bit `index` cleared
    (active low); all ones when `index < 0`.  Python computes
    `0xFF if index < 0 else 0xFF & ~(1 << index)`; on `Nat` the non-negative
    branch is `255 ^^^ ((1 <<< index.toNat) &&& 255)`. -/
def MCP23017.set_led_only (m : MCP23017) (index : Int) : MCP23017 :=
  let mask : Nat := if index < 0 then 255 else 255 ^^^ ((1 <<< index.toNat) &&& 255)
  { m with olatb := mask }

/-- Per-port descriptor, from `class PC`. -/
structure PC where
  index : Nat
  sw_bit : Nat
  led_bit : Nat
  mux_side : Char
  mux_sel : Nat
  ts3_side : Char
  hc_addr : Nat
deriving DecidableEq

/-- The port table `self.pcs` from `Usb8Selector.__init__`. -/
def pcs : List PC :=
  [ ⟨0, 7, 0, 'B', 3, 'B', 0⟩,
    ⟨1, 6, 1, 'B', 2, 'B', 1⟩,
    ⟨2, 5, 2, 'B', 1, 'B', 2⟩,
    ⟨3, 4, 3, 'B', 0, 'B', 3⟩,
    ⟨4, 3, 4, 'A', 3, 'A', 4⟩,
    ⟨5, 2, 5, 'A', 2, 'A', 5⟩,
    ⟨6, 1, 6, 'A', 1, 'A', 6⟩,
    ⟨7, 0, 7, 'A', 0, 'A', 7⟩ ]

/-- Total lookup into the port table (used only at indices < 8). -/
def pcAt (p : Nat) : PC := pcs.getD p ⟨0, 7, 0, 'B', 3, 'B', 0⟩

/-- `self.swbit_to_index = {pc.sw_bit: pc.index for pc in self.pcs}`:
    reverse lookup from a GPA bit position to the port index. -/
def swbit_to_index (bit : Nat) : Option Int :=
  (pcs.find? (fun pc => pc.sw_bit == bit)).map (fun pc => (pc.index : Int))

/-- State of `class Usb8Selector`: the four route devices, the expander's
    LED latch, `self.selected` (-1 = all disconnected) and
    `self.last_sw_state`. -/
structure Usb8Selector where
  ts3 : TS3USB30
  muxA : PI3USB14
  muxB : PI3USB14
  hc137 : HC137
  io : MCP23017
  selected : Int
  last_sw_state : Nat
deriving DecidableEq

/-- `Usb8Selector._disconnect_all`: disable TS3, both muxes and the decoder,
    then set `selected = -1`. -/
def Usb8Selector._disconnect_all (s : Usb8Selector) : Usb8Selector :=
  { s with
    ts3 := s.ts3.disable
    muxA := s.muxA.disable
    muxB := s.muxB.disable
    hc137 := s.hc137.disable
    selected := -1 }

/-- `Usb8Selector._route_to_pc`: the glitch-free routing sequence.
    1) all paths off; 2) program the decoder address while `~E1` is high;
    program and enable only the chosen 4:1 side and route the 2:1 switch;
    3) enable the decoder; 4) after the settle delay enable the 2:1 switch;
    finally record the selection. -/
def Usb8Selector._route_to_pc (s : Usb8Selector) (pc : PC) : Usb8Selector :=
  let s1 := { s with
    ts3 := s.ts3.disable
    muxA := s.muxA.disable
    muxB := s.muxB.disable
    hc137 := s.hc137.disable }
  let s2 := { s1 with hc137 := s1.hc137.select_addr (pc.hc_addr : Int) }
  let s3 :=
    if pc.mux_side = 'A' then
      { s2 with
        muxA := (s2.muxA.select (pc.mux_sel : Int)).enable
        muxB := s2.muxB.disable
        ts3 := s2.ts3.route_to_A }
    else
      { s2 with
        muxB := (s2.muxB.select (pc.mux_sel : Int)).enable
        muxA := s2.muxA.disable
        ts3 := s2.ts3.route_to_B }
  let s4 := { s3 with hc137 := s3.hc137.enable }
  let s5 := { s4 with ts3 := s4.ts3.enable }
  { s5 with selected := (pc.index : Int) }

/-- `Usb8Selector._update_leds`: write the LED byte for `self.selected`. -/
def Usb8Selector._update_leds (s : Usb8Selector) : Usb8Selector :=
  { s with io := s.io.set_led_only s.selected }

/-- `Usb8Selector.select_pc`: out-of-range index disconnects everything;
    selecting the already selected port skips the routing; in every case the
    LEDs are refreshed afterwards. -/
def Usb8Selector.select_pc (s : Usb8Selector) (idx : Int) : Usb8Selector :=
  let s1 :=
    if h : 0 ≤ idx ∧ idx < (pcs.length : Int) then
      if idx ≠ s.selected then
        s._route_to_pc (pcs.get ⟨idx.toNat, by
          have hl : pcs.length = 8 := rfl
          omega⟩)
      else s
    else s._disconnect_all
  s1._update_leds

/-- `Usb8Selector.disconnect`. -/
def Usb8Selector.disconnect (s : Usb8Selector) : Usb8Selector :=
  s._disconnect_all._update_leds

/-- The inner loop of `_on_mcp_int`: scan bit positions in the given order,
    and on the first rising bit whose reverse lookup succeeds return that
    port index. -/
def scanLoop (rising : Nat) : List Nat → Option Int
  | [] => none
  | bit :: rest =>
    if rising &&& (1 <<< bit) ≠ 0 then
      match swbit_to_index bit with
      | some idx => some idx
      | none => scanLoop rising rest
    else scanLoop rising rest

/-- Rising-edge byte `(~last) & state & 0xFF` of `_on_mcp_int`, on `Nat`. -/
def risingOf (last state : Nat) : Nat :=
  (((last % 256) ^^^ 255) &&& state) &&& 255

/-- `Usb8Selector._on_mcp_int` with the sampled GPIOA byte passed in:
    discard when no bit changed; otherwise on any rising (released) bit scan
    bits 7..0 and select the first matching port; finally latch the sample. -/
def Usb8Selector._on_mcp_int (s : Usb8Selector) (state : Nat) : Usb8Selector :=
  let changed := s.last_sw_state ^^^ state
  if changed = 0 then s
  else
    let rising := risingOf s.last_sw_state state
    let s1 :=
      if rising ≠ 0 then
        match scanLoop rising [7, 6, 5, 4, 3, 2, 1, 0] with
        | some idx => s.select_pc idx
        | none => s
      else s
    { s1 with last_sw_state := state }

/-- `Usb8Selector.__init__` after the device constructors ran (each device
    driven to its disabled idle level, OLATB all ones), followed by the
    initial GPIOA read `r`, `_disconnect_all` and `_update_leds`. -/
def initState (r : Nat) : Usb8Selector :=
  let base : Usb8Selector :=
    { ts3 := ⟨1, 0⟩
      muxA := ⟨1, 1, 1⟩
      muxB := ⟨1, 1, 1⟩
      hc137 := ⟨1, 1, 1, 1⟩
      io := ⟨255⟩
      selected := -1
      last_sw_state := r }
  base._disconnect_all._update_leds

/-- Intermediate states of `_route_to_pc` at single-pin-write granularity:
    one entry per GPIO write (device methods that write several pins, such as
    `select_addr` writing A0, A1, A2 in turn, contribute one state each),
    starting with the initial state and ending with the completed routing. -/
def routeTrace (s : Usb8Selector) (pc : PC) : List Usb8Selector :=
  let t1 := { s with ts3 := { s.ts3 with oe := 1 } }
  let t2 := { t1 with muxA := { t1.muxA with en_n := 1 } }
  let t3 := { t2 with muxB := { t2.muxB with en_n := 1 } }
  let t4 := { t3 with hc137 := { t3.hc137 with e1_n := 1 } }
  let a : Nat := (max 0 (min 7 (pc.hc_addr : Int))).toNat
  let t5 := { t4 with hc137 := { t4.hc137 with a0 := (a >>> 0) &&& 1 } }
  let t6 := { t5 with hc137 := { t5.hc137 with a1 := (a >>> 1) &&& 1 } }
  let t7 := { t6 with hc137 := { t6.hc137 with a2 := (a >>> 2) &&& 1 } }
  let p : Nat := (max 0 (min 3 (pc.mux_sel : Int))).toNat
  if pc.mux_side = 'A' then
    let t8 := { t7 with muxA := { t7.muxA with s0 := (p >>> 0) &&& 1 } }
    let t9 := { t8 with muxA := { t8.muxA with s1 := (p >>> 1) &&& 1 } }
    let t10 := { t9 with muxA := { t9.muxA with en_n := 0 } }
    let t11 := { t10 with muxB := { t10.muxB with en_n := 1 } }
    let t12 := { t11 with ts3 := { t11.ts3 with s := 1 } }
    let t13 := { t12 with hc137 := { t12.hc137 with e1_n := 0 } }
    let t14 := { t13 with ts3 := { t13.ts3 with oe := 0 } }
    let t15 := { t14 with selected := (pc.index : Int) }
    [s, t1, t2, t3, t4, t5, t6, t7, t8, t9, t10, t11, t12, t13, t14, t15]
  else
    let t8 := { t7 with muxB := { t7.muxB with s0 := (p >>> 0) &&& 1 } }
    let t9 := { t8 with muxB := { t8.muxB with s1 := (p >>> 1) &&& 1 } }
    let t10 := { t9 with muxB := { t9.muxB with en_n := 0 } }
    let t11 := { t10 with muxA := { t10.muxA with en_n := 1 } }
    let t12 := { t11 with ts3 := { t11.ts3 with s := 0 } }
    let t13 := { t12 with hc137 := { t12.hc137 with e1_n := 0 } }
    let t14 := { t13 with ts3 := { t13.ts3 with oe := 0 } }
    let t15 := { t14 with selected := (pc.index : Int) }
    [s, t1, t2, t3, t4, t5, t6, t7, t8, t9, t10, t11, t12, t13, t14, t15]

/-- Intermediate states of `_disconnect_all` followed by `_update_leds`. -/
def disconnectTrace (s : Usb8Selector) : List Usb8Selector :=
  let t1 := { s with ts3 := { s.ts3 with oe := 1 } }
  let t2 := { t1 with muxA := { t1.muxA with en_n := 1 } }
  let t3 := { t2 with muxB := { t2.muxB with en_n := 1 } }
  let t4 := { t3 with hc137 := { t3.hc137 with e1_n := 1 } }
  let t5 := { t4 with selected := -1 }
  [s, t1, t2, t3, t4, t5, t5._update_leds]

/-- Intermediate states of `select_pc`, at single-pin-write granularity. -/
def selectTrace (s : Usb8Selector) (idx : Int) : List Usb8Selector :=
  if h : 0 ≤ idx ∧ idx < (pcs.length : Int) then
    if idx ≠ s.selected then
      routeTrace s (pcs.get ⟨idx.toNat, by
        have hl : pcs.length = 8 := rfl
        omega⟩) ++
        [(s._route_to_pc (pcs.get ⟨idx.toNat, by
          have hl : pcs.length = 8 := rfl
          omega⟩))._update_leds]
    else [s, s._update_leds]
  else disconnectTrace s

/-- The decoder address lines (A2, A1, A0). -/
def addrLines (d : HC137) : Nat × Nat × Nat := (d.a2, d.a1, d.a0)

/-- The decoder address bits that route port `pc` (as programmed by
    `select_addr pc.hc_addr`). -/
def hcBits (pc : PC) : Nat × Nat × Nat :=
  let a : Nat := (max 0 (min 7 (pc.hc_addr : Int))).toNat
  ((a >>> 2) &&& 1, (a >>> 1) &&& 1, (a >>> 0) &&& 1)

/-- Port `pc`'s downstream power line is asserted: decoder enabled and its
    address lines carry `pc`'s address. -/
def powerOn (s : Usb8Selector) (pc : PC) : Prop :=
  s.hc137.e1_n = 0 ∧ addrLines s.hc137 = hcBits pc

/-- Decoder discipline on one adjacent pair of a trace: either the address
    lines are untouched or the decoder is disabled on both sides of the step,
    and a step that enables the decoder only happens once the address lines
    already carry the target port's fully programmed address. -/
def decoderStep (pc : PC) (t u : Usb8Selector) : Prop :=
  (addrLines u.hc137 = addrLines t.hc137 ∨ (t.hc137.e1_n = 1 ∧ u.hc137.e1_n = 1)) ∧
  (t.hc137.e1_n = 1 → u.hc137.e1_n = 0 → addrLines u.hc137 = hcBits pc)

/-- The LED byte that `_update_leds` writes for a given `selected` value. -/
def ledMaskOf (sel : Int) : Nat :=
  if sel < 0 then 255 else 255 ^^^ ((1 <<< sel.toNat) &&& 255)

/-- S1 select bit driven by `PI3USB14.select pc.mux_sel`. -/
def muxS1 (pc : PC) : Nat := ((max 0 (min 3 (pc.mux_sel : Int))).toNat >>> 1) &&& 1

/-- S0 select bit driven by `PI3USB14.select pc.mux_sel`. -/
def muxS0 (pc : PC) : Nat := ((max 0 (min 3 (pc.mux_sel : Int))).toNat >>> 0) &&& 1

/-- The route devices are configured exactly as `pc`'s descriptor demands:
    decoder enabled on `pc`'s address, TS3 enabled on `pc`'s side, and only
    the 4:1 switch on `pc`'s side enabled, with `pc`'s select value. -/
def goodRoute (s : Usb8Selector) (pc : PC) : Prop :=
  s.hc137.e1_n = 0 ∧ addrLines s.hc137 = hcBits pc ∧
  s.ts3.oe = 0 ∧ s.ts3.s = (if pc.ts3_side = 'A' then 1 else 0) ∧
  (if pc.mux_side = 'A' then
    s.muxA.en_n = 0 ∧ s.muxB.en_n = 1 ∧ s.muxA.s1 = muxS1 pc ∧ s.muxA.s0 = muxS0 pc
  else
    s.muxB.en_n = 0 ∧ s.muxA.en_n = 1 ∧ s.muxB.s1 = muxS1 pc ∧ s.muxB.s0 = muxS0 pc)

/-- All three route device families disabled. -/
def allOff (s : Usb8Selector) : Prop :=
  s.ts3.oe = 1 ∧ s.muxA.en_n = 1 ∧ s.muxB.en_n = 1 ∧ s.hc137.e1_n = 1

/-- The RouteState invariant: a selected port is routed exactly per its
    descriptor; `selected = -1` means everything is disabled. -/
def routeInv (s : Usb8Selector) : Prop :=
  (∀ p : Nat, p < 8 → s.selected = (p : Int) → goodRoute s (pcAt p)) ∧
  (s.selected = -1 → allOff s)

/-- The LED latch agrees with `selected`. -/
def ledSync (s : Usb8Selector) : Prop := s.io.olatb = ledMaskOf s.selected

/-- States reachable from startup through the public operations:
    `select_pc` (any integer), `disconnect`, and the interrupt handler with
    any sampled byte. -/
inductive Reach : Usb8Selector → Prop
  | init (r : Nat) : Reach (initState r)
  | select {s : Usb8Selector} (h : Reach s) (idx : Int) : Reach (s.select_pc idx)
  | disconnect {s : Usb8Selector} (h : Reach s) : Reach s.disconnect
  | interrupt {s : Usb8Selector} (h : Reach s) (b : Nat) : Reach (s._on_mcp_int b)

/-! ### Helper lemmas -/

lemma scanLoop_zero (l : List Nat) : scanLoop 0 l = none := by
  induction l with
  | nil => rfl
  | cons b rest ih => simp [scanLoop, ih]

/-- If the latched sample and the new sample agree, the handler discards the
    interrupt. -/
lemma handler_spurious (s : Usb8Selector) (b : Nat)
    (hch : s.last_sw_state ^^^ b = 0) : s._on_mcp_int b = s := by
  unfold Usb8Selector._on_mcp_int
  rw [if_pos hch]

/-- If some bit changed and the scan finds a port, the handler is
    `select_pc` of that port followed by latching the sample. -/
lemma handler_applies_select (s : Usb8Selector) (b : Nat)
    (hch : s.last_sw_state ^^^ b ≠ 0) (idx : Int)
    (hscan : scanLoop (risingOf s.last_sw_state b) [7, 6, 5, 4, 3, 2, 1, 0] = some idx) :
    s._on_mcp_int b = { s.select_pc idx with last_sw_state := b } := by
  have hr : risingOf s.last_sw_state b ≠ 0 := by
    intro h0
    rw [h0, scanLoop_zero] at hscan
    exact Option.noConfusion hscan
  unfold Usb8Selector._on_mcp_int
  rw [if_neg hch]
  show ({ (if risingOf s.last_sw_state b ≠ 0 then
            match scanLoop (risingOf s.last_sw_state b) [7, 6, 5, 4, 3, 2, 1, 0] with
            | some idx => s.select_pc idx
            | none => s
          else s) with last_sw_state := b } : Usb8Selector)
      = { s.select_pc idx with last_sw_state := b }
  rw [if_pos hr, hscan]

/-- If some bit changed but no bit rose, the handler only latches the
    sample. -/
lemma handler_no_rising (s : Usb8Selector) (b : Nat)
    (hch : s.last_sw_state ^^^ b ≠ 0) (hr : risingOf s.last_sw_state b = 0) :
    s._on_mcp_int b = { s with last_sw_state := b } := by
  unfold Usb8Selector._on_mcp_int
  rw [if_neg hch]
  show ({ (if risingOf s.last_sw_state b ≠ 0 then
            match scanLoop (risingOf s.last_sw_state b) [7, 6, 5, 4, 3, 2, 1, 0] with
            | some idx => s.select_pc idx
            | none => s
          else s) with last_sw_state := b } : Usb8Selector)
      = { s with last_sw_state := b }
  rw [if_neg (by simp [hr])]

/-- If some bit changed but the scan finds nothing, the handler only latches
    the sample. -/
lemma handler_scan_none (s : Usb8Selector) (b : Nat)
    (hch : s.last_sw_state ^^^ b ≠ 0)
    (hscan : scanLoop (risingOf s.last_sw_state b) [7, 6, 5, 4, 3, 2, 1, 0] = none) :
    s._on_mcp_int b = { s with last_sw_state := b } := by
  unfold Usb8Selector._on_mcp_int
  rw [if_neg hch]
  show ({ (if risingOf s.last_sw_state b ≠ 0 then
            match scanLoop (risingOf s.last_sw_state b) [7, 6, 5, 4, 3, 2, 1, 0] with
            | some idx => s.select_pc idx
            | none => s
          else s) with last_sw_state := b } : Usb8Selector)
      = { s with last_sw_state := b }
  by_cases hr : risingOf s.last_sw_state b ≠ 0
  · rw [if_pos hr, hscan]
  · rw [if_neg hr]

/-- `select_pc` at a valid index makes that index the active port. -/
lemma select_pc_selected (s : Usb8Selector) (p : Nat) (hp : p < 8) :
    (s.select_pc (p : Int)).selected = (p : Int) := by
  have hlen : (pcs.length : Int) = 8 := rfl
  unfold Usb8Selector.select_pc
  rw [dif_pos (by omega)]
  by_cases hne : (p : Int) ≠ s.selected
  · rw [if_pos hne]
    interval_cases p <;> rfl
  · rw [if_neg hne]
    push_neg at hne
    exact hne.symm

lemma hcBits_inj : ∀ pc1 ∈ pcs, ∀ pc2 ∈ pcs, pc1 ≠ pc2 → hcBits pc1 ≠ hcBits pc2 := by
  decide

/-- In any single state, the decoder cannot assert the power lines of two
    distinct ports: its address lines carry exactly one address and the
    table's addresses are pairwise distinct. -/
lemma powerOn_exclusive (t : Usb8Selector) :
    ∀ pc1 ∈ pcs, ∀ pc2 ∈ pcs, pc1 ≠ pc2 → ¬(powerOn t pc1 ∧ powerOn t pc2) := by
  intro pc1 h1 pc2 h2 hne ⟨⟨_, ha1⟩, ⟨_, ha2⟩⟩
  exact hcBits_inj pc1 h1 pc2 h2 hne (ha1 ▸ ha2)

/-- The decoder discipline holds across every adjacent pair of the routing
    sequence (with the final LED write appended). -/
lemma chain_routeTrace (s : Usb8Selector) (pc : PC) :
    List.Chain' (decoderStep pc)
      (routeTrace s pc ++ [(s._route_to_pc pc)._update_leds]) := by
  by_cases hside : pc.mux_side = 'A' <;>
    simp only [routeTrace, Usb8Selector._route_to_pc, Usb8Selector._update_leds,
      MCP23017.set_led_only, HC137.select_addr, HC137.enable, HC137.disable,
      TS3USB30.enable, TS3USB30.disable, TS3USB30.route_to_A, TS3USB30.route_to_B,
      PI3USB14.select, PI3USB14.enable, PI3USB14.disable,
      hside, if_true, if_false, List.cons_append, List.nil_append,
      List.chain'_cons, List.chain'_singleton, and_true,
      decoderStep, addrLines, hcBits, Prod.mk.injEq] <;>
    simp <;>
    exact fun h1 h2 => absurd (h1.symm.trans h2) one_ne_zero

lemma get_eq_pcAt (p : Nat) (hp : p < 8) (h : ((p : Int)).toNat < pcs.length) :
    pcs.get ⟨((p : Int)).toNat, h⟩ = pcAt p := by
  interval_cases p <;> rfl

lemma chain_selectTrace (s : Usb8Selector) (p : Nat) (hp : p < 8) :
    List.Chain' (decoderStep (pcAt p)) (selectTrace s (p : Int)) := by
  have hlen : (pcs.length : Int) = 8 := rfl
  unfold selectTrace
  rw [dif_pos (by omega)]
  by_cases hne : (p : Int) ≠ s.selected
  · rw [if_pos hne]
    rw [get_eq_pcAt p hp]
    exact chain_routeTrace s _
  · rw [if_neg hne]
    exact List.chain'_pair.mpr
      ⟨Or.inl rfl, fun h1 h2 => absurd (h1.symm.trans h2) one_ne_zero⟩

lemma selectTrace_head (s : Usb8Selector) (idx : Int) :
    (selectTrace s idx).head? = some s := by
  unfold selectTrace
  by_cases h : 0 ≤ idx ∧ idx < (pcs.length : Int)
  · rw [dif_pos h]
    by_cases hne : idx ≠ s.selected
    · rw [if_pos hne]
      unfold routeTrace
      split <;> rfl
    · rw [if_neg hne]; rfl
  · rw [dif_neg h]; rfl

lemma selectTrace_last (s : Usb8Selector) (idx : Int) :
    (selectTrace s idx).getLast? = some (s.select_pc idx) := by
  unfold selectTrace Usb8Selector.select_pc
  by_cases h : 0 ≤ idx ∧ idx < (pcs.length : Int)
  · rw [dif_pos h, dif_pos h]
    by_cases hne : idx ≠ s.selected
    · rw [if_pos hne, if_pos hne]
      exact List.getLast?_concat _
    · rw [if_neg hne, if_neg hne]; rfl
  · rw [dif_neg h, dif_neg h]; rfl

/-- Disconnect-then-update-LEDs establishes the invariant from any state. -/
lemma disconnectLeds_inv (s : Usb8Selector) :
    routeInv (s._disconnect_all._update_leds)
      ∧ ledSync (s._disconnect_all._update_leds) := by
  refine ⟨⟨?_, fun _ => ⟨rfl, rfl, rfl, rfl⟩⟩, rfl⟩
  intro p hp hsel
  have hs : (s._disconnect_all._update_leds).selected = -1 := rfl
  rw [hs] at hsel
  exact absurd hsel (by omega)

/-- `select_pc` preserves the invariant, for any integer argument. -/
lemma select_pc_inv (s : Usb8Selector) (idx : Int) (h : routeInv s) :
    routeInv (s.select_pc idx) ∧ ledSync (s.select_pc idx) := by
  have hlen : (pcs.length : Int) = 8 := rfl
  unfold Usb8Selector.select_pc
  by_cases hv : 0 ≤ idx ∧ idx < (pcs.length : Int)
  · rw [dif_pos hv]
    by_cases hne : idx ≠ s.selected
    · rw [if_pos hne]
      obtain ⟨k, hk8, rfl⟩ : ∃ k : Nat, k < 8 ∧ idx = (k : Int) :=
        ⟨idx.toNat, by omega, by omega⟩
      simp only [Int.toNat_natCast]
      interval_cases k <;>
      · refine ⟨⟨?_, ?_⟩, rfl⟩
        · intro p hp hsel
          simp only [Usb8Selector._update_leds, Usb8Selector._route_to_pc,
            MCP23017.set_led_only, HC137.select_addr, HC137.enable, HC137.disable,
            TS3USB30.enable, TS3USB30.disable, TS3USB30.route_to_A, TS3USB30.route_to_B,
            PI3USB14.select, PI3USB14.enable, PI3USB14.disable, pcs, pcAt,
            List.get] at hsel ⊢
          interval_cases p <;>
            simp_all [goodRoute, addrLines, hcBits, muxS1, muxS0, pcAt, pcs]
        · intro habs
          simp [Usb8Selector._update_leds, Usb8Selector._route_to_pc, pcs,
            HC137.enable, PI3USB14.enable, TS3USB30.enable] at habs
    · rw [if_neg hne]
      show routeInv (s._update_leds) ∧ ledSync (s._update_leds)
      exact ⟨h, rfl⟩
  · rw [dif_neg hv]
    exact disconnectLeds_inv s

/-- The interrupt handler preserves the invariant, for any sampled byte. -/
lemma on_mcp_inv (s : Usb8Selector) (b : Nat) (h : routeInv s ∧ ledSync s) :
    routeInv (s._on_mcp_int b) ∧ ledSync (s._on_mcp_int b) := by
  by_cases hch : s.last_sw_state ^^^ b = 0
  · rw [handler_spurious s b hch]
    exact h
  · by_cases hr : risingOf s.last_sw_state b = 0
    · rw [handler_no_rising s b hch hr]
      exact ⟨h.1, h.2⟩
    · cases hscan : scanLoop (risingOf s.last_sw_state b) [7, 6, 5, 4, 3, 2, 1, 0] with
      | none =>
        rw [handler_scan_none s b hch hscan]
        exact ⟨h.1, h.2⟩
      | some idx =>
        rw [handler_applies_select s b hch idx hscan]
        have h2 := select_pc_inv s idx h.1
        exact ⟨h2.1, h2.2⟩

/-- Every reachable state satisfies the route invariant and has its LED
    latch in sync with the active port. -/
lemma reach_inv (s : Usb8Selector) (h : Reach s) : routeInv s ∧ ledSync s := by
  induction h with
  | init r => exact disconnectLeds_inv _
  | select _ idx ih => exact select_pc_inv _ idx ih.1
  | disconnect _ ih => exact disconnectLeds_inv _
  | interrupt _ b ih => exact on_mcp_inv _ b ih

/-- Port `p`'s switch bit has a rising edge in the byte `r`. -/
def hasRising (r : Nat) (p : Nat) : Prop := r &&& (1 <<< (pcAt p).sw_bit) ≠ 0

instance hasRising.decidable (r p : Nat) : Decidable (hasRising r p) :=
  inferInstanceAs (Decidable ¬(r &&& (1 <<< (pcAt p).sw_bit) = 0))

/-- The scan over bits 7..0 returns exactly the lowest-index port with a
    rising edge, or none when no table bit rose. -/
def scanOk (r : Nat) : Prop :=
  match scanLoop r [7, 6, 5, 4, 3, 2, 1, 0] with
  | none => ∀ p, p < 8 → ¬hasRising r p
  | some idx => ∃ p : Nat, p < 8 ∧ idx = (p : Int) ∧ hasRising r p ∧
      ∀ q, q < p → ¬hasRising r q

instance scanOk.decidable (r : Nat) : Decidable (scanOk r) := by
  unfold scanOk
  cases scanLoop r [7, 6, 5, 4, 3, 2, 1, 0] with
  | none => exact inferInstanceAs (Decidable (∀ p, p < 8 → ¬hasRising r p))
  | some idx => exact inferInstanceAs (Decidable (∃ p : Nat, p < 8 ∧ idx = (p : Int) ∧
      hasRising r p ∧ ∀ q, q < p → ¬hasRising r q))

set_option maxRecDepth 4000 in
lemma scanOk_all : ∀ r, r < 256 → scanOk r := by decide

lemma risingOf_lt (last state : Nat) : risingOf last state < 256 :=
  Nat.lt_succ_of_le Nat.and_le_right

/-! ### Claims -/

/-- C1: selecting `p1` then `p2` (valid, distinct) never passes through an
    intermediate state in which two different ports' downstream power lines
    are asserted simultaneously, and across every single-pin-write step the
    decoder is disabled before its address lines change and is re-enabled
    only once the new address is fully programmed.  The traces start at the
    initial state and end exactly at the states `select_pc` produces. -/
theorem glitch_free_two_selects (s : Usb8Selector) (p1 p2 : Nat)
    (h1 : p1 < 8) (h2 : p2 < 8) (hd : p1 ≠ p2) :
    (∀ t ∈ selectTrace s (p1 : Int) ++ selectTrace (s.select_pc (p1 : Int)) (p2 : Int),
        ∀ pc1 ∈ pcs, ∀ pc2 ∈ pcs, pc1 ≠ pc2 → ¬(powerOn t pc1 ∧ powerOn t pc2))
    ∧ List.Chain' (decoderStep (pcAt p1)) (selectTrace s (p1 : Int))
    ∧ List.Chain' (decoderStep (pcAt p2))
        (selectTrace (s.select_pc (p1 : Int)) (p2 : Int))
    ∧ (selectTrace s (p1 : Int)).head? = some s
    ∧ (selectTrace s (p1 : Int)).getLast? = some (s.select_pc (p1 : Int))
    ∧ (selectTrace (s.select_pc (p1 : Int)) (p2 : Int)).head?
        = some (s.select_pc (p1 : Int))
    ∧ (selectTrace (s.select_pc (p1 : Int)) (p2 : Int)).getLast?
        = some ((s.select_pc (p1 : Int)).select_pc (p2 : Int)) :=
  ⟨fun t _ => powerOn_exclusive t,
   chain_selectTrace s p1 h1,
   chain_selectTrace _ p2 h2,
   selectTrace_head s _,
   selectTrace_last s _,
   selectTrace_head _ _,
   selectTrace_last _ _⟩

/-- Witness for C1 at the startup state with ports 0 and 1. -/
theorem glitch_free_two_selects_witness :
    (∀ t ∈ selectTrace (initState 255) ((0 : Nat) : Int)
        ++ selectTrace ((initState 255).select_pc ((0 : Nat) : Int)) ((1 : Nat) : Int),
        ∀ pc1 ∈ pcs, ∀ pc2 ∈ pcs, pc1 ≠ pc2 → ¬(powerOn t pc1 ∧ powerOn t pc2))
    ∧ List.Chain' (decoderStep (pcAt 0)) (selectTrace (initState 255) ((0 : Nat) : Int))
    ∧ List.Chain' (decoderStep (pcAt 1))
        (selectTrace ((initState 255).select_pc ((0 : Nat) : Int)) ((1 : Nat) : Int))
    ∧ (selectTrace (initState 255) ((0 : Nat) : Int)).head? = some (initState 255)
    ∧ (selectTrace (initState 255) ((0 : Nat) : Int)).getLast?
        = some ((initState 255).select_pc ((0 : Nat) : Int))
    ∧ (selectTrace ((initState 255).select_pc ((0 : Nat) : Int)) ((1 : Nat) : Int)).head?
        = some ((initState 255).select_pc ((0 : Nat) : Int))
    ∧ (selectTrace ((initState 255).select_pc ((0 : Nat) : Int)) ((1 : Nat) : Int)).getLast?
        = some (((initState 255).select_pc ((0 : Nat) : Int)).select_pc ((1 : Nat) : Int)) :=
  glitch_free_two_selects (initState 255) 0 1 (by decide) (by decide) (by decide)

/-- C2: every state reachable through the public operations (`select_pc`
    with any integer, `disconnect`, the interrupt handler with any sampled
    byte) satisfies the RouteState invariant: a selected port is routed
    exactly per its descriptor, `selected = -1` means all devices off. -/
theorem route_state_invariant (s : Usb8Selector) (h : Reach s) : routeInv s :=
  (reach_inv s h).1

/-- Witness for C2 at a concrete reachable state. -/
theorem route_state_invariant_witness : routeInv ((initState 255).select_pc 5) :=
  route_state_invariant _ (Reach.select (Reach.init 255) 5)

/-- C3: for every integer `idx`, `select_pc` disconnects everything when
    `idx` is out of [0,7], skips routing when `idx` is the active port, and
    routes port `idx` otherwise; in every case it afterwards refreshes the
    LED byte from the resulting active port. -/
theorem select_pc_dispatch (s : Usb8Selector) (idx : Int) :
    (¬(0 ≤ idx ∧ idx < 8) → s.select_pc idx = s._disconnect_all._update_leds)
    ∧ (0 ≤ idx ∧ idx < 8 → idx = s.selected → s.select_pc idx = s._update_leds)
    ∧ (∀ h : 0 ≤ idx ∧ idx < 8, idx ≠ s.selected →
        s.select_pc idx = (s._route_to_pc (pcs.get ⟨idx.toNat, by
          have hl : pcs.length = 8 := rfl
          omega⟩))._update_leds)
    ∧ (s.select_pc idx).io.olatb = ledMaskOf (s.select_pc idx).selected := by
  have hlen : (pcs.length : Int) = 8 := rfl
  refine ⟨?_, ?_, ?_, ?_⟩
  · intro h
    unfold Usb8Selector.select_pc
    rw [dif_neg (by omega)]
  · intro h he
    unfold Usb8Selector.select_pc
    rw [dif_pos (by omega), if_neg (by simpa using he)]
  · intro h hne
    unfold Usb8Selector.select_pc
    rw [dif_pos (by omega), if_pos hne]
  · unfold Usb8Selector.select_pc
    by_cases h : 0 ≤ idx ∧ idx < (pcs.length : Int)
    · rw [dif_pos h]
      by_cases hne : idx ≠ s.selected
      · rw [if_pos hne]; rfl
      · rw [if_neg hne]; rfl
    · rw [dif_neg h]; rfl

/-- Witness for C3: an out-of-range index disconnects, and the LED byte
    always tracks the resulting active port. -/
theorem select_pc_dispatch_witness :
    (initState 255).select_pc 9 = (initState 255)._disconnect_all._update_leds
    ∧ ((initState 255).select_pc 9).io.olatb
        = ledMaskOf ((initState 255).select_pc 9).selected :=
  ⟨(select_pc_dispatch (initState 255) 9).1 (by decide),
   (select_pc_dispatch (initState 255) 9).2.2.2⟩

/-- C4: after a valid `select_pc p` the LED byte has exactly the table's
    LED bit for `p` cleared and all other bits set; after `disconnect` or an
    out-of-range `select_pc` the LED byte is 0xFF and no route device is
    enabled. -/
theorem led_byte_exact (s : Usb8Selector) (p : Nat) (hp : p < 8) :
    ((s.select_pc (p : Int)).io.olatb.testBit (pcAt p).led_bit = false
      ∧ ∀ j, j < 8 → j ≠ (pcAt p).led_bit →
          (s.select_pc (p : Int)).io.olatb.testBit j = true)
    ∧ (s.disconnect.io.olatb = 255 ∧ allOff s.disconnect)
    ∧ (∀ idx : Int, ¬(0 ≤ idx ∧ idx < 8) →
        (s.select_pc idx).io.olatb = 255 ∧ allOff (s.select_pc idx)) := by
  have hlen : (pcs.length : Int) = 8 := rfl
  refine ⟨?_, ⟨rfl, rfl, rfl, rfl, rfl⟩, ?_⟩
  · have holatb : (s.select_pc (p : Int)).io.olatb = 255 ^^^ ((1 <<< p) &&& 255) := by
      unfold Usb8Selector.select_pc
      rw [dif_pos (by omega)]
      by_cases hne : (p : Int) ≠ s.selected
      · rw [if_pos hne]
        interval_cases p <;> rfl
      · rw [if_neg hne]
        push_neg at hne
        simp [Usb8Selector._update_leds, MCP23017.set_led_only, ← hne]
    rw [holatb]
    have hled : (pcAt p).led_bit = p := by interval_cases p <;> rfl
    rw [hled]
    constructor
    · interval_cases p <;> decide
    · intro j hj hjp
      interval_cases p <;> interval_cases j <;> simp_all <;> decide
  · intro idx h
    have hdis : s.select_pc idx = s._disconnect_all._update_leds := by
      unfold Usb8Selector.select_pc
      rw [dif_neg (by omega)]
    rw [hdis]
    exact ⟨rfl, rfl, rfl, rfl, rfl⟩

/-- Witness for C4 at the startup state and port 3. -/
theorem led_byte_exact_witness :
    ((((initState 255).select_pc ((3 : Nat) : Int)).io.olatb.testBit (pcAt 3).led_bit = false
      ∧ ∀ j, j < 8 → j ≠ (pcAt 3).led_bit →
          (((initState 255).select_pc ((3 : Nat) : Int)).io.olatb.testBit j = true))
    ∧ ((initState 255).disconnect.io.olatb = 255 ∧ allOff (initState 255).disconnect)
    ∧ (∀ idx : Int, ¬(0 ≤ idx ∧ idx < 8) →
        ((initState 255).select_pc idx).io.olatb = 255
          ∧ allOff ((initState 255).select_pc idx))) :=
  led_byte_exact (initState 255) 3 (by decide)

/-- C5: the handler triggers on release edges only: from `lastSample = 0xFF`
    a press (bit 7 falls, `state = 0x7F`) causes no selection and only
    latches the sample; the following release (`state = 0xFF`) selects the
    port whose switch bit is 7 — port 0. -/
theorem press_release_edge (s : Usb8Selector) (h : s.last_sw_state = 255) :
    s._on_mcp_int 127 = { s with last_sw_state := 127 }
    ∧ ((s._on_mcp_int 127)._on_mcp_int 255).selected = 0
    ∧ (pcAt 0).sw_bit = 7 := by
  have h1 : s._on_mcp_int 127 = { s with last_sw_state := 127 } :=
    handler_no_rising s 127 (by rw [h]; decide) (by unfold risingOf; rw [h]; decide)
  refine ⟨h1, ?_, rfl⟩
  rw [h1]
  have h2 : ({ s with last_sw_state := 127 } : Usb8Selector)._on_mcp_int 255
      = { ({ s with last_sw_state := 127 } : Usb8Selector).select_pc 0 with
            last_sw_state := 255 } :=
    handler_applies_select _ 255
      (by show (127 : Nat) ^^^ 255 ≠ 0; decide) 0
      (by show scanLoop (risingOf 127 255) [7, 6, 5, 4, 3, 2, 1, 0] = some 0; decide)
  rw [h2]
  exact select_pc_selected _ 0 (by decide)

/-- Witness for C5 at the startup state (whose latch is 0xFF). -/
theorem press_release_edge_witness :
    (initState 255)._on_mcp_int 127 = { initState 255 with last_sw_state := 127 }
    ∧ (((initState 255)._on_mcp_int 127)._on_mcp_int 255).selected = 0
    ∧ (pcAt 0).sw_bit = 7 :=
  press_release_edge (initState 255) rfl

/-- C6: when an interrupt's sample shows rising edges on several bits, the
    scan returns exactly one port — the lowest-index port among those whose
    switch bit rose — and the handler performs `select_pc` on precisely that
    port. -/
theorem simultaneous_release_priority (last state : Nat) :
    (∀ idx : Int,
        scanLoop (risingOf last state) [7, 6, 5, 4, 3, 2, 1, 0] = some idx →
        ∃ p : Nat, p < 8 ∧ idx = (p : Int) ∧ hasRising (risingOf last state) p ∧
          ∀ q, q < p → ¬hasRising (risingOf last state) q)
    ∧ ((∃ p : Nat, p < 8 ∧ hasRising (risingOf last state) p) →
        ∃ idx : Int,
          scanLoop (risingOf last state) [7, 6, 5, 4, 3, 2, 1, 0] = some idx)
    ∧ (∀ s : Usb8Selector, s.last_sw_state = last → last ^^^ state ≠ 0 →
        ∀ idx : Int,
          scanLoop (risingOf last state) [7, 6, 5, 4, 3, 2, 1, 0] = some idx →
          s._on_mcp_int state = { s.select_pc idx with last_sw_state := state }) := by
  have hok := scanOk_all (risingOf last state) (risingOf_lt last state)
  unfold scanOk at hok
  refine ⟨?_, ?_, ?_⟩
  · intro idx hscan
    rw [hscan] at hok
    exact hok
  · intro ⟨p, hp, hr⟩
    cases hscan : scanLoop (risingOf last state) [7, 6, 5, 4, 3, 2, 1, 0] with
    | none => rw [hscan] at hok; exact absurd hr (hok p hp)
    | some idx => exact ⟨idx, rfl⟩
  · intro s hs hch idx hscan
    exact handler_applies_select s state (hs ▸ hch) idx (hs ▸ hscan)

/-- Witness for C6: bits 7 and 6 rise together (`last = 0x3F`,
    `state = 0xFF`); the scan picks port 0, the lowest index, and the
    handler from the matching startup state performs that selection. -/
theorem simultaneous_release_priority_witness :
    (∃ p : Nat, p < 8 ∧ (0 : Int) = (p : Int) ∧ hasRising (risingOf 63 255) p ∧
        ∀ q, q < p → ¬hasRising (risingOf 63 255) q)
    ∧ (initState 63)._on_mcp_int 255
        = { (initState 63).select_pc 0 with last_sw_state := 255 } :=
  ⟨(simultaneous_release_priority 63 255).1 0 (by decide),
   (simultaneous_release_priority 63 255).2.2 (initState 63) rfl (by decide) 0 (by decide)⟩

/-- C7: after every completed handler run, `lastSample` equals the byte the
    handler sampled — also on the spurious path, where nothing changed and
    the latch already equals the sample. -/
theorem last_sample_resynced (s : Usb8Selector) (b : Nat) :
    (s._on_mcp_int b).last_sw_state = b := by
  unfold Usb8Selector._on_mcp_int
  by_cases h : s.last_sw_state ^^^ b = 0
  · simpa [h] using Nat.xor_eq_zero.mp h
  · rw [if_neg h]

/-- C8: in every reachable state whose active port is `p`, `select_pc p` is
    a complete no-op: the state (all device lines, `selected`, LED byte,
    input latch) is unchanged. -/
theorem select_current_noop (s : Usb8Selector) (p : Nat) (hre : Reach s)
    (hp : p < 8) (hsel : s.selected = (p : Int)) :
    s.select_pc (p : Int) = s := by
  have hled : s.io.olatb = ledMaskOf s.selected := (reach_inv s hre).2
  have hlen : (pcs.length : Int) = 8 := rfl
  unfold Usb8Selector.select_pc
  rw [dif_pos (by omega), if_neg (not_not_intro hsel.symm)]
  show s._update_leds = s
  have hol : s.io.set_led_only s.selected = s.io := by
    calc s.io.set_led_only s.selected = ⟨ledMaskOf s.selected⟩ := rfl
      _ = ⟨s.io.olatb⟩ := by rw [hled]
      _ = s.io := rfl
  show { s with io := s.io.set_led_only s.selected } = s
  rw [hol]

/-- Witness for C8: re-selecting the already selected port 2. -/
theorem select_current_noop_witness :
    ((initState 255).select_pc ((2 : Nat) : Int)).select_pc ((2 : Nat) : Int)
      = (initState 255).select_pc ((2 : Nat) : Int) :=
  select_current_noop _ 2 (Reach.select (Reach.init 255) 2) (by decide) (by decide)

/-- C9: `disconnect` is idempotent — applying it twice from any state gives
    exactly the state after applying it once — and afterwards every route
    device is disabled, no port is selected, and the LEDs are all off. -/
theorem disconnect_idem (s : Usb8Selector) :
    s.disconnect.disconnect = s.disconnect ∧ allOff s.disconnect ∧
      s.disconnect.selected = -1 ∧ s.disconnect.io.olatb = 255 :=
  ⟨rfl, ⟨rfl, rfl, rfl, rfl⟩, rfl, rfl⟩

/-- C10: `PI3USB14.select` and `HC137.select_addr` are total over all
    integers: each clamps its argument into the device's valid range
    ([0,3] resp. [0,7]) before driving the lines, every driven line is a
    0/1 level whose combination encodes exactly the clamped value, and the
    enable line is untouched. -/
theorem select_lines_clamped (d : PI3USB14) (dec : HC137) (x y : Int) :
    (0 ≤ max 0 (min 3 x) ∧ max 0 (min 3 x) ≤ 3
      ∧ d.select x = d.select (max 0 (min 3 x))
      ∧ (d.select x).s0 ≤ 1 ∧ (d.select x).s1 ≤ 1
      ∧ (d.select x).s1 * 2 + (d.select x).s0 = (max 0 (min 3 x)).toNat
      ∧ (d.select x).en_n = d.en_n)
    ∧ (0 ≤ max 0 (min 7 y) ∧ max 0 (min 7 y) ≤ 7
      ∧ dec.select_addr y = dec.select_addr (max 0 (min 7 y))
      ∧ (dec.select_addr y).a0 ≤ 1 ∧ (dec.select_addr y).a1 ≤ 1
      ∧ (dec.select_addr y).a2 ≤ 1
      ∧ (dec.select_addr y).a2 * 4 + (dec.select_addr y).a1 * 2
          + (dec.select_addr y).a0 = (max 0 (min 7 y)).toNat
      ∧ (dec.select_addr y).e1_n = dec.e1_n) := by
  have hx : max 0 (min 3 (max 0 (min 3 x))) = max 0 (min 3 x) := by omega
  have hy : max 0 (min 7 (max 0 (min 7 y))) = max 0 (min 7 y) := by omega
  refine ⟨⟨by omega, by omega, by simp [PI3USB14.select, hx], Nat.and_le_right,
      Nat.and_le_right, ?_, rfl⟩,
    ⟨by omega, by omega, by simp [HC137.select_addr, hy], Nat.and_le_right,
      Nat.and_le_right, Nat.and_le_right, ?_, rfl⟩⟩
  · show ((max 0 (min 3 x)).toNat >>> 1 &&& 1) * 2
        + ((max 0 (min 3 x)).toNat >>> 0 &&& 1) = (max 0 (min 3 x)).toNat
    have hx3 : (max 0 (min 3 x)).toNat ≤ 3 := by omega
    set n := (max 0 (min 3 x)).toNat with hn
    interval_cases n <;> rfl
  · show ((max 0 (min 7 y)).toNat >>> 2 &&& 1) * 4
        + ((max 0 (min 7 y)).toNat >>> 1 &&& 1) * 2
        + ((max 0 (min 7 y)).toNat >>> 0 &&& 1) = (max 0 (min 7 y)).toNat
    have hy7 : (max 0 (min 7 y)).toNat ≤ 7 := by omega
    set n := (max 0 (min 7 y)).toNat with hn
    interval_cases n <;> rfl
